import Mathlib

/-!
Shallow embedding of the field-arithmetic kernel in `src/curve/field.rs`
(repository `cronokirby/ck-dodo`): a 4-limb (64-bit limbs, little-endian)
representation of elements of the field with p = 2^255 - 19, with addition
modulo 2^256 and multiplication using the 2^256 ≡ 38 (mod p) reduction
identity.

Machine integers are embedded as `Nat` with explicit `% 2^64` (resp.
`% 2^8` for `u8`, `% 2^128` for `u128`) at every point where the Rust code
truncates (an `as` cast or a wrapping `+=`).  `u128` intermediates that
cannot overflow are plain `Nat` arithmetic, matching the source's use of
`u128::from`.
-/

namespace CkDodo

/-- The modulus p = 2^255 - 19 of the Curve25519 base field. -/
def P : Nat := 2 ^ 255 - 19

/-- `adc` from `field.rs` (portable path): computes `a + b + carry` in a
`u128`, writes the low 64 bits to `out` (first component) and returns
`(full_res >> 64) as u8` as the new carry (second component).  The
`as u64` / `as u8` casts are the explicit `% 2^64` / `% 2^8`. -/
def adc (carry a b : Nat) : Nat × Nat :=
  let full_res := (a + b + carry) % 2 ^ 128
  (full_res % 2 ^ 64, full_res / 2 ^ 64 % 2 ^ 8)

/-- The field element type `Fp`: four 64-bit limbs, little-endian
(`limb0` least significant).  The source's `limbs: [u64; 4]` array is
embedded as four named fields; `limbs[i]` corresponds to `limb`ᵢ. -/
structure Fp where
  limb0 : Nat
  limb1 : Nat
  limb2 : Nat
  limb3 : Nat
deriving DecidableEq, Repr

/-- The integer represented by a field element: Σ limb[i] · 2^(64·i). -/
def Fp.val (x : Fp) : Nat :=
  x.limb0 + x.limb1 * 2 ^ 64 + x.limb2 * 2 ^ 128 + x.limb3 * 2 ^ 192

/-- All four limbs are genuine `u64` values. -/
def Fp.bounded (x : Fp) : Prop :=
  x.limb0 < 2 ^ 64 ∧ x.limb1 < 2 ^ 64 ∧ x.limb2 < 2 ^ 64 ∧ x.limb3 < 2 ^ 64

instance (x : Fp) : Decidable x.bounded := by
  unfold Fp.bounded; infer_instance

/-- `Fp::add` from `field.rs`: the loop `for i in 0..4` daisy-chaining the
carry through `adc`, unrolled (the limb count is the constant `N = 4`).
Mutating `self.limbs[i]` in place becomes building the result limb by
limb. -/
def Fp.add (self other : Fp) : Fp :=
  let s0 := adc 0 self.limb0 other.limb0
  let s1 := adc s0.2 self.limb1 other.limb1
  let s2 := adc s1.2 self.limb2 other.limb2
  let s3 := adc s2.2 self.limb3 other.limb3
  ⟨s0.1, s1.1, s2.1, s3.1⟩

/-- `Fp::constant` from `field.rs`: limbs `[0xFF, 0xFF, 0xFF, 0xFF]`. -/
def Fp.constant : Fp := ⟨0xFF, 0xFF, 0xFF, 0xFF⟩

/-- `multiply_in` from the portable `mul_assign` (field.rs lines 127-135):
computes `uv = a * b` as a `u128`, adds its low and high 64-bit halves into
the running accumulator `r2:r1:r0` via two `adc` steps, and adds the final
carry into `r2` with a plain (wrapping) `u64` addition `*r2 += carry`,
hence the `% 2^64`.  Returns the new `(r0, r1, r2)`. -/
def multiply_in (a b r0 r1 r2 : Nat) : Nat × Nat × Nat :=
  let uv := a * b % 2 ^ 128
  let s0 := adc 0 (uv % 2 ^ 64) r0
  let s1 := adc s0.2 (uv / 2 ^ 64 % 2 ^ 64) r1
  (s0.1, s1.1, (r2 + s1.2) % 2 ^ 64)

/-- `propagate` from the portable `mul_assign` (field.rs lines 138-144):
given `r2:r1:r0`, sets `limb = r0` (first component) and shifts the
accumulator down to `0:r2:r1` (remaining components `(r0, r1, r2)` of the
result). -/
def propagate (r0 r1 r2 : Nat) : Nat × Nat × Nat × Nat :=
  (r0, r1, r2, 0)

/-- The schoolbook phase of the portable `mul_assign` (field.rs lines
146-197): the unrolled triangular accumulation producing the full 8-limb
product, low half in the `low` scratch buffer (first component), high half
clobbering `self`'s limbs (second component).  In the source every read of
`self.limbs[i]` happens before that limb is clobbered by a `propagate`
(limb 1 is read last for k = 4, clobbered after; limb 2 read last for
k = 5; limb 3 read last for k = 6), so this pure embedding reads the
original limbs of `self` throughout. -/
def schoolbook (self other : Fp) : Fp × Fp :=
  let (r0, r1, r2) := multiply_in self.limb0 other.limb0 0 0 0
  let (low0, r0, r1, r2) := propagate r0 r1 r2
  let (r0, r1, r2) := multiply_in self.limb0 other.limb1 r0 r1 r2
  let (r0, r1, r2) := multiply_in self.limb1 other.limb0 r0 r1 r2
  let (low1, r0, r1, r2) := propagate r0 r1 r2
  let (r0, r1, r2) := multiply_in self.limb0 other.limb2 r0 r1 r2
  let (r0, r1, r2) := multiply_in self.limb1 other.limb1 r0 r1 r2
  let (r0, r1, r2) := multiply_in self.limb2 other.limb0 r0 r1 r2
  let (low2, r0, r1, r2) := propagate r0 r1 r2
  let (r0, r1, r2) := multiply_in self.limb0 other.limb3 r0 r1 r2
  let (r0, r1, r2) := multiply_in self.limb1 other.limb2 r0 r1 r2
  let (r0, r1, r2) := multiply_in self.limb2 other.limb1 r0 r1 r2
  let (r0, r1, r2) := multiply_in self.limb3 other.limb0 r0 r1 r2
  let (low3, r0, r1, r2) := propagate r0 r1 r2
  let (r0, r1, r2) := multiply_in self.limb1 other.limb3 r0 r1 r2
  let (r0, r1, r2) := multiply_in self.limb2 other.limb2 r0 r1 r2
  let (r0, r1, r2) := multiply_in self.limb3 other.limb1 r0 r1 r2
  let (high0, r0, r1, r2) := propagate r0 r1 r2
  let (r0, r1, r2) := multiply_in self.limb2 other.limb3 r0 r1 r2
  let (r0, r1, r2) := multiply_in self.limb3 other.limb2 r0 r1 r2
  let (high1, r0, r1, r2) := propagate r0 r1 r2
  let (r0, r1, r2) := multiply_in self.limb3 other.limb3 r0 r1 r2
  let (high2, r0, _r1, _r2) := propagate r0 r1 r2
  (⟨low0, low1, low2, low3⟩, ⟨high0, high1, high2, r0⟩)

/-- The reduction-by-38 fold closing the portable `mul_assign` (field.rs
lines 199-212): one carry-propagating pass computing, limb by limb,
`full_res = carry + low[i] + 38 * high[i]` in a `u128`; the low 64 bits
become the output limb and `(full_res >> 64) as u64` the next carry.  The
carry out of limb 3 is discarded: the call
`self.reduce_after_scaling(carry)` is commented out in the source.  `high`
plays the role of `self` at this point of the source (it holds product
limbs 4-7). -/
def reduce38 (low high : Fp) : Fp :=
  let f0 := (0 + low.limb0 + 38 * high.limb0) % 2 ^ 128
  let c1 := f0 / 2 ^ 64 % 2 ^ 64
  let f1 := (c1 + low.limb1 + 38 * high.limb1) % 2 ^ 128
  let c2 := f1 / 2 ^ 64 % 2 ^ 64
  let f2 := (c2 + low.limb2 + 38 * high.limb2) % 2 ^ 128
  let c3 := f2 / 2 ^ 64 % 2 ^ 64
  let f3 := (c3 + low.limb3 + 38 * high.limb3) % 2 ^ 128
  ⟨f0 % 2 ^ 64, f1 % 2 ^ 64, f2 % 2 ^ 64, f3 % 2 ^ 64⟩

/-- The portable `MulAssign::mul_assign` (field.rs lines 120-213):
schoolbook phase followed by the reduction-by-38 fold. -/
def Fp.mulAssign (self other : Fp) : Fp :=
  let (low, high) := schoolbook self other
  reduce38 low high

/-- `multiply_in` with the one wrapping-capable machine operation,
`*r2 += u64::from(carry)`, replaced by a checked addition (`none` models
the overflow that a debug build would detect as a panic).  Everything else
is identical to `multiply_in`. -/
def multiply_in_checked (a b r0 r1 r2 : Nat) : Option (Nat × Nat × Nat) :=
  let uv := a * b % 2 ^ 128
  let s0 := adc 0 (uv % 2 ^ 64) r0
  let s1 := adc s0.2 (uv / 2 ^ 64 % 2 ^ 64) r1
  if r2 + s1.2 < 2 ^ 64 then some (s0.1, s1.1, r2 + s1.2) else none

/-- `Option` bind, written out as a plain function (the library's inlined
bind makes compilation of the deeply nested chain below explode). -/
def obind {A B : Type} (x : Option A) (f : A → Option B) : Option B :=
  match x with
  | none => none
  | some a => f a

/-- The schoolbook phase with every `multiply_in` replaced by its checked
variant; `none` anywhere aborts the computation. -/
def schoolbookChecked (self other : Fp) : Option (Fp × Fp) :=
  obind (multiply_in_checked self.limb0 other.limb0 0 0 0) fun (r0, r1, r2) =>
  let (low0, r0, r1, r2) := propagate r0 r1 r2
  obind (multiply_in_checked self.limb0 other.limb1 r0 r1 r2) fun (r0, r1, r2) =>
  obind (multiply_in_checked self.limb1 other.limb0 r0 r1 r2) fun (r0, r1, r2) =>
  let (low1, r0, r1, r2) := propagate r0 r1 r2
  obind (multiply_in_checked self.limb0 other.limb2 r0 r1 r2) fun (r0, r1, r2) =>
  obind (multiply_in_checked self.limb1 other.limb1 r0 r1 r2) fun (r0, r1, r2) =>
  obind (multiply_in_checked self.limb2 other.limb0 r0 r1 r2) fun (r0, r1, r2) =>
  let (low2, r0, r1, r2) := propagate r0 r1 r2
  obind (multiply_in_checked self.limb0 other.limb3 r0 r1 r2) fun (r0, r1, r2) =>
  obind (multiply_in_checked self.limb1 other.limb2 r0 r1 r2) fun (r0, r1, r2) =>
  obind (multiply_in_checked self.limb2 other.limb1 r0 r1 r2) fun (r0, r1, r2) =>
  obind (multiply_in_checked self.limb3 other.limb0 r0 r1 r2) fun (r0, r1, r2) =>
  let (low3, r0, r1, r2) := propagate r0 r1 r2
  obind (multiply_in_checked self.limb1 other.limb3 r0 r1 r2) fun (r0, r1, r2) =>
  obind (multiply_in_checked self.limb2 other.limb2 r0 r1 r2) fun (r0, r1, r2) =>
  obind (multiply_in_checked self.limb3 other.limb1 r0 r1 r2) fun (r0, r1, r2) =>
  let (high0, r0, r1, r2) := propagate r0 r1 r2
  obind (multiply_in_checked self.limb2 other.limb3 r0 r1 r2) fun (r0, r1, r2) =>
  obind (multiply_in_checked self.limb3 other.limb2 r0 r1 r2) fun (r0, r1, r2) =>
  let (high1, r0, r1, r2) := propagate r0 r1 r2
  obind (multiply_in_checked self.limb3 other.limb3 r0 r1 r2) fun (r0, r1, r2) =>
  let (high2, r0, _r1, _r2) := propagate r0 r1 r2
  some (⟨low0, low1, low2, low3⟩, ⟨high0, high1, high2, r0⟩)

/-- The portable `mul_assign` with the checked schoolbook phase; the fold
itself performs only `u128` arithmetic and casts, which cannot panic. -/
def Fp.mulAssignChecked (self other : Fp) : Option Fp :=
  (schoolbookChecked self other).map fun p => reduce38 p.1 p.2

/-- One hexadecimal digit, uppercase, as in Rust `{:X}` formatting. -/
def hexDigit (d : Nat) : Char :=
  if d < 10 then Char.ofNat (48 + d) else Char.ofNat (55 + d)

/-- Hexadecimal digits of `n`, most significant first.  Fuel-based
structural recursion (so that concrete values reduce in the kernel); fuel
64 covers every value below 16^64, far beyond a `u64` limb. -/
def hexDigitsCore : Nat → Nat → List Char
  | 0, _ => []
  | fuel + 1, n =>
    if n < 16 then [hexDigit n]
    else hexDigitsCore fuel (n / 16) ++ [hexDigit (n % 16)]

/-- Rust `{:08X}`: uppercase hexadecimal, left-padded with zeros to a
MINIMUM field width of 8; values with more than 8 hex digits print all
their digits. -/
def fmt08X (n : Nat) : String :=
  let s := hexDigitsCore 64 n
  ⟨List.replicate (8 - s.length) '0' ++ s⟩

/-- The loop of `impl Debug for Fp` (field.rs lines 41-46):
`for (i, x) in self.limbs.iter().rev().enumerate()`, writing `_` before
every chunk but the first (`i > 0`) and each limb with `{:08X}`.  The
list argument is the reversed limb sequence, `i` the enumeration
counter. -/
def fmtLimbs : List Nat → Nat → String
  | [], _ => ""
  | x :: xs, i =>
    (if i > 0 then "_" else "") ++ fmt08X x ++ fmtLimbs xs (i + 1)

/-- `impl Debug for Fp` (field.rs lines 38-49): `Fp(0x`, the reversed
limb dump, `)`. -/
def fmtFp (x : Fp) : String :=
  "Fp(0x" ++ fmtLimbs [x.limb3, x.limb2, x.limb1, x.limb0] 0 ++ ")"

end CkDodo

namespace CkDodo

/-- C4: for every carry-in in {0, 1} and 64-bit operands `a`, `b`, the
carry primitive `adc` satisfies `out + carry_out * 2^64 = a + b + carry_in`
exactly, and the returned carry-out is in {0, 1}. -/
theorem adc_exact (carry a b : Nat) (hc : carry ≤ 1)
    (ha : a < 2 ^ 64) (hb : b < 2 ^ 64) :
    (adc carry a b).1 + (adc carry a b).2 * 2 ^ 64 = a + b + carry ∧
      (adc carry a b).2 ≤ 1 := by
  unfold adc
  dsimp only
  omega

/-- Witness for C4 at carry = 1, a = 2^64 - 1, b = 5. -/
theorem adc_exact_witness :
    (1 : Nat) ≤ 1 ∧ (2 ^ 64 - 1 : Nat) < 2 ^ 64 ∧ (5 : Nat) < 2 ^ 64 ∧
      ((adc 1 (2 ^ 64 - 1) 5).1 + (adc 1 (2 ^ 64 - 1) 5).2 * 2 ^ 64 =
          (2 ^ 64 - 1) + 5 + 1 ∧
        (adc 1 (2 ^ 64 - 1) 5).2 ≤ 1) :=
  ⟨by decide, by decide, by decide,
    adc_exact 1 (2 ^ 64 - 1) 5 (by decide) (by decide) (by decide)⟩

/-- C10: the portable `adc` satisfies the exact identity
`out + carry_out * 2^64 = a + b + carry_in` for every 8-bit carry-in (not
just 0 and 1), with the returned carry-out at most 2; the documented
precondition carry ∈ {0, 1} is needed only for carry-out ∈ {0, 1}. -/
theorem adc_exact_u8 (carry a b : Nat) (hc : carry < 2 ^ 8)
    (ha : a < 2 ^ 64) (hb : b < 2 ^ 64) :
    (adc carry a b).1 + (adc carry a b).2 * 2 ^ 64 = a + b + carry ∧
      (adc carry a b).2 ≤ 2 := by
  unfold adc
  dsimp only
  omega

/-- Witness for C10 at carry = 255, a = b = 2^64 - 1 (the extreme case,
where the carry-out actually reaches 2). -/
theorem adc_exact_u8_witness :
    (255 : Nat) < 2 ^ 8 ∧ (2 ^ 64 - 1 : Nat) < 2 ^ 64 ∧
      (2 ^ 64 - 1 : Nat) < 2 ^ 64 ∧
      ((adc 255 (2 ^ 64 - 1) (2 ^ 64 - 1)).1 +
            (adc 255 (2 ^ 64 - 1) (2 ^ 64 - 1)).2 * 2 ^ 64 =
          (2 ^ 64 - 1) + (2 ^ 64 - 1) + 255 ∧
        (adc 255 (2 ^ 64 - 1) (2 ^ 64 - 1)).2 ≤ 2) :=
  ⟨by decide, by decide, by decide,
    adc_exact_u8 255 (2 ^ 64 - 1) (2 ^ 64 - 1) (by decide) (by decide)
      (by decide)⟩

/-- A bounded field element represents an integer below 2^256. -/
theorem Fp.val_lt (x : Fp) (hx : x.bounded) : x.val < 2 ^ 256 := by
  obtain ⟨h0, h1, h2, h3⟩ := hx
  unfold Fp.val
  omega

/-- Characterization of `adc` on in-range inputs: the `% 2^128` of the
`u128` sum and the `% 2^8` of the carry cast are invisible, leaving the
plain split of `a + b + carry` at bit 64. -/
theorem adc_spec (carry a b : Nat) (hc : carry < 2 ^ 8) (ha : a < 2 ^ 64)
    (hb : b < 2 ^ 64) :
    (adc carry a b).1 = (a + b + carry) % 2 ^ 64 ∧
      (adc carry a b).2 = (a + b + carry) / 2 ^ 64 := by
  unfold adc
  dsimp only
  constructor <;> omega

/-- One `multiply_in` step adds `a * b` exactly into the 192-bit
accumulator `r2:r1:r0`, keeps all three words below 2^64, and grows `r2`
by at most one, provided the inputs are 64-bit values and `r2` has room
for the incoming carry. -/
theorem multiply_in_spec (a b r0 r1 r2 : Nat) (ha : a < 2 ^ 64)
    (hb : b < 2 ^ 64) (h0 : r0 < 2 ^ 64) (h1 : r1 < 2 ^ 64)
    (h2 : r2 + 1 < 2 ^ 64) :
    (multiply_in a b r0 r1 r2).1 + (multiply_in a b r0 r1 r2).2.1 * 2 ^ 64 +
        (multiply_in a b r0 r1 r2).2.2 * 2 ^ 128 =
      r0 + r1 * 2 ^ 64 + r2 * 2 ^ 128 + a * b ∧
      (multiply_in a b r0 r1 r2).1 < 2 ^ 64 ∧
      (multiply_in a b r0 r1 r2).2.1 < 2 ^ 64 ∧
      (multiply_in a b r0 r1 r2).2.2 ≤ r2 + 1 := by
  have huv : a * b < 2 ^ 128 := by
    calc a * b ≤ (2 ^ 64 - 1) * (2 ^ 64 - 1) :=
          Nat.mul_le_mul (by omega) (by omega)
      _ < 2 ^ 128 := by norm_num
  unfold multiply_in adc
  dsimp only
  generalize a * b = uv at huv ⊢
  omega

/-- Under the same side conditions, the checked `multiply_in` succeeds and
agrees with the unchecked one. -/
theorem multiply_in_checked_eq (a b r0 r1 r2 : Nat) (ha : a < 2 ^ 64)
    (hb : b < 2 ^ 64) (h0 : r0 < 2 ^ 64) (h1 : r1 < 2 ^ 64)
    (h2 : r2 + 1 < 2 ^ 64) :
    multiply_in_checked a b r0 r1 r2 = some (multiply_in a b r0 r1 r2) := by
  have huv : a * b < 2 ^ 128 := by
    calc a * b ≤ (2 ^ 64 - 1) * (2 ^ 64 - 1) :=
          Nat.mul_le_mul (by omega) (by omega)
      _ < 2 ^ 128 := by norm_num
  unfold multiply_in_checked multiply_in adc
  dsimp only
  generalize a * b = uv at huv ⊢
  split
  · simp only [Option.some.injEq, Prod.mk.injEq]
    refine ⟨trivial, trivial, ?_⟩
    omega
  · omega

/-- `multiply_in_spec` restated for a named result triple `(x, y, z)`. -/
theorem multiply_in_spec_xyz (a b r0 r1 r2 x y z : Nat)
    (e : multiply_in a b r0 r1 r2 = (x, y, z)) (ha : a < 2 ^ 64)
    (hb : b < 2 ^ 64) (h0 : r0 < 2 ^ 64) (h1 : r1 < 2 ^ 64)
    (h2 : r2 + 1 < 2 ^ 64) :
    x + y * 2 ^ 64 + z * 2 ^ 128 = r0 + r1 * 2 ^ 64 + r2 * 2 ^ 128 + a * b ∧
      x < 2 ^ 64 ∧ y < 2 ^ 64 ∧ z ≤ r2 + 1 := by
  have h := multiply_in_spec a b r0 r1 r2 ha hb h0 h1 h2
  rw [e] at h
  simpa using h

/-- The reduction-by-38 fold computes `(low + 38 * high) mod 2^256` on the
represented integers: the carry out of the top limb is discarded. -/
theorem reduce38_val (low high : Fp) (hl : low.bounded) (hh : high.bounded) :
    (reduce38 low high).val = (low.val + 38 * high.val) % 2 ^ 256 := by
  obtain ⟨hl0, hl1, hl2, hl3⟩ := hl
  obtain ⟨hh0, hh1, hh2, hh3⟩ := hh
  unfold reduce38 Fp.val
  dsimp only
  have g0 : (0 + low.limb0 + 38 * high.limb0) % 2 ^ 128 =
      low.limb0 + 38 * high.limb0 := by omega
  rw [g0]
  have g0c : (low.limb0 + 38 * high.limb0) / 2 ^ 64 % 2 ^ 64 =
      (low.limb0 + 38 * high.limb0) / 2 ^ 64 := by omega
  rw [g0c]
  have g1 : ((low.limb0 + 38 * high.limb0) / 2 ^ 64 + low.limb1 +
        38 * high.limb1) % 2 ^ 128 =
      (low.limb0 + 38 * high.limb0) / 2 ^ 64 + low.limb1 + 38 * high.limb1 :=
    by omega
  rw [g1]
  have g1c : ((low.limb0 + 38 * high.limb0) / 2 ^ 64 + low.limb1 +
        38 * high.limb1) / 2 ^ 64 % 2 ^ 64 =
      ((low.limb0 + 38 * high.limb0) / 2 ^ 64 + low.limb1 +
        38 * high.limb1) / 2 ^ 64 := by omega
  rw [g1c]
  have g2 : (((low.limb0 + 38 * high.limb0) / 2 ^ 64 + low.limb1 +
          38 * high.limb1) / 2 ^ 64 + low.limb2 + 38 * high.limb2) % 2 ^ 128 =
      ((low.limb0 + 38 * high.limb0) / 2 ^ 64 + low.limb1 +
        38 * high.limb1) / 2 ^ 64 + low.limb2 + 38 * high.limb2 := by omega
  rw [g2]
  have g2c : (((low.limb0 + 38 * high.limb0) / 2 ^ 64 + low.limb1 +
          38 * high.limb1) / 2 ^ 64 + low.limb2 + 38 * high.limb2) / 2 ^ 64 %
        2 ^ 64 =
      (((low.limb0 + 38 * high.limb0) / 2 ^ 64 + low.limb1 +
          38 * high.limb1) / 2 ^ 64 + low.limb2 + 38 * high.limb2) / 2 ^ 64 :=
    by omega
  rw [g2c]
  have g3 : ((((low.limb0 + 38 * high.limb0) / 2 ^ 64 + low.limb1 +
            38 * high.limb1) / 2 ^ 64 + low.limb2 + 38 * high.limb2) / 2 ^ 64 +
          low.limb3 + 38 * high.limb3) % 2 ^ 128 =
      (((low.limb0 + 38 * high.limb0) / 2 ^ 64 + low.limb1 +
          38 * high.limb1) / 2 ^ 64 + low.limb2 + 38 * high.limb2) / 2 ^ 64 +
        low.limb3 + 38 * high.limb3 := by omega
  rw [g3]
  omega

set_option maxHeartbeats 8000000 in
/-- Master lemma on the schoolbook phase: the 8 limbs produced (low
scratch then clobbered receiver) are 64-bit bounded, together represent
exactly the product of the inputs, and the checked variant succeeds with
the same result. -/
theorem mul_pipeline_spec (a b : Fp) (ha : a.bounded) (hb : b.bounded) :
    (schoolbook a b).1.bounded ∧ (schoolbook a b).2.bounded ∧
      (schoolbook a b).1.val + 2 ^ 256 * (schoolbook a b).2.val =
        a.val * b.val ∧
      schoolbookChecked a b = some (schoolbook a b) := by
  obtain ⟨ha0, ha1, ha2, ha3⟩ := ha
  obtain ⟨hb0, hb1, hb2, hb3⟩ := hb
  obtain ⟨x1, y1, z1, e1⟩ : ∃ x y z,
      multiply_in a.limb0 b.limb0 0 0 0 = (x, y, z) := ⟨_, _, _, rfl⟩
  obtain ⟨v1, bx1, by1, bz1⟩ := multiply_in_spec_xyz a.limb0 b.limb0 0 0 0
    x1 y1 z1 e1 ha0 hb0 (by omega) (by omega) (by omega)
  have c1 := multiply_in_checked_eq a.limb0 b.limb0 0 0 0 ha0 hb0
    (by omega) (by omega) (by omega)
  rw [e1] at c1
  obtain ⟨x2, y2, z2, e2⟩ : ∃ x y z,
      multiply_in a.limb0 b.limb1 y1 z1 0 = (x, y, z) := ⟨_, _, _, rfl⟩
  obtain ⟨v2, bx2, by2, bz2⟩ := multiply_in_spec_xyz a.limb0 b.limb1 y1 z1 0
    x2 y2 z2 e2 ha0 hb1 by1 (by omega) (by omega)
  have c2 := multiply_in_checked_eq a.limb0 b.limb1 y1 z1 0 ha0 hb1
    by1 (by omega) (by omega)
  rw [e2] at c2
  obtain ⟨x3, y3, z3, e3⟩ : ∃ x y z,
      multiply_in a.limb1 b.limb0 x2 y2 z2 = (x, y, z) := ⟨_, _, _, rfl⟩
  obtain ⟨v3, bx3, by3, bz3⟩ := multiply_in_spec_xyz a.limb1 b.limb0 x2 y2 z2
    x3 y3 z3 e3 ha1 hb0 bx2 by2 (by omega)
  have c3 := multiply_in_checked_eq a.limb1 b.limb0 x2 y2 z2 ha1 hb0
    bx2 by2 (by omega)
  rw [e3] at c3
  obtain ⟨x4, y4, z4, e4⟩ : ∃ x y z,
      multiply_in a.limb0 b.limb2 y3 z3 0 = (x, y, z) := ⟨_, _, _, rfl⟩
  obtain ⟨v4, bx4, by4, bz4⟩ := multiply_in_spec_xyz a.limb0 b.limb2 y3 z3 0
    x4 y4 z4 e4 ha0 hb2 by3 (by omega) (by omega)
  have c4 := multiply_in_checked_eq a.limb0 b.limb2 y3 z3 0 ha0 hb2
    by3 (by omega) (by omega)
  rw [e4] at c4
  obtain ⟨x5, y5, z5, e5⟩ : ∃ x y z,
      multiply_in a.limb1 b.limb1 x4 y4 z4 = (x, y, z) := ⟨_, _, _, rfl⟩
  obtain ⟨v5, bx5, by5, bz5⟩ := multiply_in_spec_xyz a.limb1 b.limb1 x4 y4 z4
    x5 y5 z5 e5 ha1 hb1 bx4 by4 (by omega)
  have c5 := multiply_in_checked_eq a.limb1 b.limb1 x4 y4 z4 ha1 hb1
    bx4 by4 (by omega)
  rw [e5] at c5
  obtain ⟨x6, y6, z6, e6⟩ : ∃ x y z,
      multiply_in a.limb2 b.limb0 x5 y5 z5 = (x, y, z) := ⟨_, _, _, rfl⟩
  obtain ⟨v6, bx6, by6, bz6⟩ := multiply_in_spec_xyz a.limb2 b.limb0 x5 y5 z5
    x6 y6 z6 e6 ha2 hb0 bx5 by5 (by omega)
  have c6 := multiply_in_checked_eq a.limb2 b.limb0 x5 y5 z5 ha2 hb0
    bx5 by5 (by omega)
  rw [e6] at c6
  obtain ⟨x7, y7, z7, e7⟩ : ∃ x y z,
      multiply_in a.limb0 b.limb3 y6 z6 0 = (x, y, z) := ⟨_, _, _, rfl⟩
  obtain ⟨v7, bx7, by7, bz7⟩ := multiply_in_spec_xyz a.limb0 b.limb3 y6 z6 0
    x7 y7 z7 e7 ha0 hb3 by6 (by omega) (by omega)
  have c7 := multiply_in_checked_eq a.limb0 b.limb3 y6 z6 0 ha0 hb3
    by6 (by omega) (by omega)
  rw [e7] at c7
  obtain ⟨x8, y8, z8, e8⟩ : ∃ x y z,
      multiply_in a.limb1 b.limb2 x7 y7 z7 = (x, y, z) := ⟨_, _, _, rfl⟩
  obtain ⟨v8, bx8, by8, bz8⟩ := multiply_in_spec_xyz a.limb1 b.limb2 x7 y7 z7
    x8 y8 z8 e8 ha1 hb2 bx7 by7 (by omega)
  have c8 := multiply_in_checked_eq a.limb1 b.limb2 x7 y7 z7 ha1 hb2
    bx7 by7 (by omega)
  rw [e8] at c8
  obtain ⟨x9, y9, z9, e9⟩ : ∃ x y z,
      multiply_in a.limb2 b.limb1 x8 y8 z8 = (x, y, z) := ⟨_, _, _, rfl⟩
  obtain ⟨v9, bx9, by9, bz9⟩ := multiply_in_spec_xyz a.limb2 b.limb1 x8 y8 z8
    x9 y9 z9 e9 ha2 hb1 bx8 by8 (by omega)
  have c9 := multiply_in_checked_eq a.limb2 b.limb1 x8 y8 z8 ha2 hb1
    bx8 by8 (by omega)
  rw [e9] at c9
  obtain ⟨x10, y10, z10, e10⟩ : ∃ x y z,
      multiply_in a.limb3 b.limb0 x9 y9 z9 = (x, y, z) := ⟨_, _, _, rfl⟩
  obtain ⟨v10, bx10, by10, bz10⟩ := multiply_in_spec_xyz a.limb3 b.limb0 x9 y9 z9
    x10 y10 z10 e10 ha3 hb0 bx9 by9 (by omega)
  have c10 := multiply_in_checked_eq a.limb3 b.limb0 x9 y9 z9 ha3 hb0
    bx9 by9 (by omega)
  rw [e10] at c10
  obtain ⟨x11, y11, z11, e11⟩ : ∃ x y z,
      multiply_in a.limb1 b.limb3 y10 z10 0 = (x, y, z) := ⟨_, _, _, rfl⟩
  obtain ⟨v11, bx11, by11, bz11⟩ := multiply_in_spec_xyz a.limb1 b.limb3 y10 z10 0
    x11 y11 z11 e11 ha1 hb3 by10 (by omega) (by omega)
  have c11 := multiply_in_checked_eq a.limb1 b.limb3 y10 z10 0 ha1 hb3
    by10 (by omega) (by omega)
  rw [e11] at c11
  obtain ⟨x12, y12, z12, e12⟩ : ∃ x y z,
      multiply_in a.limb2 b.limb2 x11 y11 z11 = (x, y, z) := ⟨_, _, _, rfl⟩
  obtain ⟨v12, bx12, by12, bz12⟩ := multiply_in_spec_xyz a.limb2 b.limb2 x11 y11 z11
    x12 y12 z12 e12 ha2 hb2 bx11 by11 (by omega)
  have c12 := multiply_in_checked_eq a.limb2 b.limb2 x11 y11 z11 ha2 hb2
    bx11 by11 (by omega)
  rw [e12] at c12
  obtain ⟨x13, y13, z13, e13⟩ : ∃ x y z,
      multiply_in a.limb3 b.limb1 x12 y12 z12 = (x, y, z) := ⟨_, _, _, rfl⟩
  obtain ⟨v13, bx13, by13, bz13⟩ := multiply_in_spec_xyz a.limb3 b.limb1 x12 y12 z12
    x13 y13 z13 e13 ha3 hb1 bx12 by12 (by omega)
  have c13 := multiply_in_checked_eq a.limb3 b.limb1 x12 y12 z12 ha3 hb1
    bx12 by12 (by omega)
  rw [e13] at c13
  obtain ⟨x14, y14, z14, e14⟩ : ∃ x y z,
      multiply_in a.limb2 b.limb3 y13 z13 0 = (x, y, z) := ⟨_, _, _, rfl⟩
  obtain ⟨v14, bx14, by14, bz14⟩ := multiply_in_spec_xyz a.limb2 b.limb3 y13 z13 0
    x14 y14 z14 e14 ha2 hb3 by13 (by omega) (by omega)
  have c14 := multiply_in_checked_eq a.limb2 b.limb3 y13 z13 0 ha2 hb3
    by13 (by omega) (by omega)
  rw [e14] at c14
  obtain ⟨x15, y15, z15, e15⟩ : ∃ x y z,
      multiply_in a.limb3 b.limb2 x14 y14 z14 = (x, y, z) := ⟨_, _, _, rfl⟩
  obtain ⟨v15, bx15, by15, bz15⟩ := multiply_in_spec_xyz a.limb3 b.limb2 x14 y14 z14
    x15 y15 z15 e15 ha3 hb2 bx14 by14 (by omega)
  have c15 := multiply_in_checked_eq a.limb3 b.limb2 x14 y14 z14 ha3 hb2
    bx14 by14 (by omega)
  rw [e15] at c15
  obtain ⟨x16, y16, z16, e16⟩ : ∃ x y z,
      multiply_in a.limb3 b.limb3 y15 z15 0 = (x, y, z) := ⟨_, _, _, rfl⟩
  obtain ⟨v16, bx16, by16, bz16⟩ := multiply_in_spec_xyz a.limb3 b.limb3 y15 z15 0
    x16 y16 z16 e16 ha3 hb3 by15 (by omega) (by omega)
  have c16 := multiply_in_checked_eq a.limb3 b.limb3 y15 z15 0 ha3 hb3
    by15 (by omega) (by omega)
  rw [e16] at c16
  have hab : a.val * b.val =
      a.limb0 * b.limb0 +
        (a.limb0 * b.limb1 + a.limb1 * b.limb0) * 2 ^ 64 +
        (a.limb0 * b.limb2 + a.limb1 * b.limb1 + a.limb2 * b.limb0) *
          2 ^ 128 +
        (a.limb0 * b.limb3 + a.limb1 * b.limb2 + a.limb2 * b.limb1 +
          a.limb3 * b.limb0) * 2 ^ 192 +
        (a.limb1 * b.limb3 + a.limb2 * b.limb2 + a.limb3 * b.limb1) *
          2 ^ 256 +
        (a.limb2 * b.limb3 + a.limb3 * b.limb2) * 2 ^ 320 +
        a.limb3 * b.limb3 * 2 ^ 384 := by
    unfold Fp.val
    ring
  have hsb : schoolbook a b =
      (Fp.mk x1 x3 x6 x10, Fp.mk x13 x15 x16 y16) := by
    unfold schoolbook
    simp only [e1, e2, e3, e4, e5, e6, e7, e8, e9, e10, e11, e12, e13, e14, e15, e16, propagate]
  have hsc : schoolbookChecked a b =
      some (Fp.mk x1 x3 x6 x10, Fp.mk x13 x15 x16 y16) := by
    unfold schoolbookChecked
    simp only [c1, c2, c3, c4, c5, c6, c7, c8, c9, c10, c11, c12, c13, c14, c15, c16, e1, e2, e3, e4, e5, e6, e7, e8, e9, e10, e11, e12, e13, e14, e15, e16, obind, propagate]
  zify at v1 v2 v3 v4 v5 v6 v7 v8 v9 v10 v11 v12 v13 v14 v15 v16 hab
  have keyZ : (x1 : ℤ) + x3 * 2 ^ 64 + x6 * 2 ^ 128 + x10 * 2 ^ 192 +
      2 ^ 256 * ((x13 : ℤ) + x15 * 2 ^ 64 + x16 * 2 ^ 128 + y16 * 2 ^ 192) +
      z16 * 2 ^ 512 = (a.val : ℤ) * (b.val : ℤ) := by
    linear_combination v1 + 2 ^ 64 * v2 + 2 ^ 64 * v3 + 2 ^ 128 * v4 + 2 ^ 128 * v5 +
      2 ^ 128 * v6 + 2 ^ 192 * v7 + 2 ^ 192 * v8 + 2 ^ 192 * v9 +
      2 ^ 192 * v10 + 2 ^ 256 * v11 + 2 ^ 256 * v12 + 2 ^ 256 * v13 +
      2 ^ 320 * v14 + 2 ^ 320 * v15 + 2 ^ 384 * v16 - hab
  have key : x1 + x3 * 2 ^ 64 + x6 * 2 ^ 128 + x10 * 2 ^ 192 +
      2 ^ 256 * (x13 + x15 * 2 ^ 64 + x16 * 2 ^ 128 + y16 * 2 ^ 192) +
      z16 * 2 ^ 512 = a.val * b.val := by exact_mod_cast keyZ
  have hpb : a.val * b.val < 2 ^ 512 := by
    have h1 := Fp.val_lt a ⟨ha0, ha1, ha2, ha3⟩
    have h2 := Fp.val_lt b ⟨hb0, hb1, hb2, hb3⟩
    calc a.val * b.val ≤ (2 ^ 256 - 1) * (2 ^ 256 - 1) :=
          Nat.mul_le_mul (by omega) (by omega)
      _ < 2 ^ 512 := by norm_num
  rw [hsb, hsc]
  refine ⟨⟨bx1, bx3, bx6, bx10⟩, ⟨bx13, bx15, bx16, by16⟩, ?_, rfl⟩
  show x1 + x3 * 2 ^ 64 + x6 * 2 ^ 128 + x10 * 2 ^ 192 +
      2 ^ 256 * (x13 + x15 * 2 ^ 64 + x16 * 2 ^ 128 + y16 * 2 ^ 192) =
    a.val * b.val
  omega

/-- C3: for 4-limb values `a`, `b`, `Fp::add` computes exactly
`(a + b) mod 2^256` on the represented integers: the carry out of the most
significant limb is discarded. -/
theorem add_mod_2_256 (a b : Fp) (ha : a.bounded) (hb : b.bounded) :
    (a.add b).val = (a.val + b.val) % 2 ^ 256 := by
  obtain ⟨ha0, ha1, ha2, ha3⟩ := ha
  obtain ⟨hb0, hb1, hb2, hb3⟩ := hb
  have h0 := adc_spec 0 a.limb0 b.limb0 (by norm_num) ha0 hb0
  have h1 := adc_spec (adc 0 a.limb0 b.limb0).2 a.limb1 b.limb1
    (by rw [h0.2]; omega) ha1 hb1
  have h2 := adc_spec (adc (adc 0 a.limb0 b.limb0).2 a.limb1 b.limb1).2
    a.limb2 b.limb2 (by rw [h1.2, h0.2]; omega) ha2 hb2
  have h3 := adc_spec
    (adc (adc (adc 0 a.limb0 b.limb0).2 a.limb1 b.limb1).2 a.limb2 b.limb2).2
    a.limb3 b.limb3 (by rw [h2.2, h1.2, h0.2]; omega) ha3 hb3
  unfold Fp.add Fp.val
  dsimp only
  rw [h3.1, h2.1, h2.2, h1.1, h1.2, h0.1, h0.2]
  omega

/-- Witness for C3: full wraparound, a = 2^256 - 1 (all limbs maximal),
b = 1; the sum wraps to 0. -/
theorem add_mod_2_256_witness :
    (Fp.mk (2 ^ 64 - 1) (2 ^ 64 - 1) (2 ^ 64 - 1) (2 ^ 64 - 1)).bounded ∧
      (Fp.mk 1 0 0 0).bounded ∧
      ((Fp.mk (2 ^ 64 - 1) (2 ^ 64 - 1) (2 ^ 64 - 1) (2 ^ 64 - 1)).add
            (Fp.mk 1 0 0 0)).val =
        ((Fp.mk (2 ^ 64 - 1) (2 ^ 64 - 1) (2 ^ 64 - 1) (2 ^ 64 - 1)).val +
            (Fp.mk 1 0 0 0).val) % 2 ^ 256 :=
  ⟨by decide, by decide,
    add_mod_2_256 _ _ (by decide) (by decide)⟩

/-- C5: after the schoolbook phase, the 8 limbs formed by the scratch
buffer (product limbs 0-3) followed by the receiver's limbs (product limbs
4-7), read as a 512-bit little-endian integer, equal exactly the full
product of the two 256-bit inputs. -/
theorem schoolbook_exact (a b : Fp) (ha : a.bounded) (hb : b.bounded) :
    (schoolbook a b).1.val + 2 ^ 256 * (schoolbook a b).2.val =
      a.val * b.val :=
  (mul_pipeline_spec a b ha hb).2.2.1

/-- Witness for C5 at a = 7 + 3·2^64 + 5·2^192, b = 11 + 2·2^128 +
9·2^192. -/
theorem schoolbook_exact_witness :
    (Fp.mk 7 3 0 5).bounded ∧ (Fp.mk 11 0 2 9).bounded ∧
      (schoolbook (Fp.mk 7 3 0 5) (Fp.mk 11 0 2 9)).1.val +
          2 ^ 256 * (schoolbook (Fp.mk 7 3 0 5) (Fp.mk 11 0 2 9)).2.val =
        (Fp.mk 7 3 0 5).val * (Fp.mk 11 0 2 9).val :=
  ⟨by decide, by decide,
    schoolbook_exact _ _ (by decide) (by decide)⟩

/-- Value of the full portable multiplication: the truncation to 256 bits
of `L + 38 * H`, where `L` and `H` are the low and high halves of the
exact product (shared helper for the claims about `mul_assign`). -/
theorem mulAssign_val_spec (a b : Fp) (ha : a.bounded) (hb : b.bounded) :
    (a.mulAssign b).val =
      (a.val * b.val % 2 ^ 256 + 38 * (a.val * b.val / 2 ^ 256)) % 2 ^ 256 :=
  by
  obtain ⟨hbl, hbh, hval, -⟩ := mul_pipeline_spec a b ha hb
  obtain ⟨low, high, hpr⟩ : ∃ l h, schoolbook a b = (l, h) := ⟨_, _, rfl⟩
  rw [hpr] at hbl hbh hval
  dsimp only at hbl hbh hval
  unfold Fp.mulAssign
  rw [hpr]
  dsimp only
  rw [reduce38_val low high hbl hbh]
  have h1 : low.val < 2 ^ 256 := Fp.val_lt low hbl
  have h2 : high.val < 2 ^ 256 := Fp.val_lt high hbh
  generalize a.val * b.val = v at hval ⊢
  omega

/-- C6: the portable multiplication outputs `(L + 38·H) mod 2^256`, with
`L`, `H` the halves of the exact product; the carry out of the top limb of
the fold is discarded (the `reduce_after_scaling` call is disabled). -/
theorem mulAssign_truncated (a b : Fp) (ha : a.bounded) (hb : b.bounded) :
    (a.mulAssign b).val =
      (a.val * b.val % 2 ^ 256 + 38 * (a.val * b.val / 2 ^ 256)) % 2 ^ 256 :=
  mulAssign_val_spec a b ha hb

/-- Witness for C6 at a = 2^192 (limb3 = 1) squared: the exact product is
2^384, so L = 0, H = 2^128, and the output is 38·2^128 mod 2^256. -/
theorem mulAssign_truncated_witness :
    (Fp.mk 0 0 0 1).bounded ∧
      ((Fp.mk 0 0 0 1).mulAssign (Fp.mk 0 0 0 1)).val =
        ((Fp.mk 0 0 0 1).val * (Fp.mk 0 0 0 1).val % 2 ^ 256 +
            38 * ((Fp.mk 0 0 0 1).val * (Fp.mk 0 0 0 1).val / 2 ^ 256)) %
          2 ^ 256 :=
  ⟨by decide, mulAssign_truncated _ _ (by decide) (by decide)⟩

/-- C7: the portable multiplication pipeline never overflows the one
unchecked `u64` addition it contains (`*r2 += u64::from(carry)` inside
`multiply_in`): the fully checked variant succeeds on every pair of 4-limb
inputs and agrees with the unchecked code.  All remaining arithmetic of
the kernel (`adc`, `add`, `constant`, the fold) is performed in `u128`
with explicit carry capture or is a total function of the limbs, so the
embedding gives it no failure case to check. -/
theorem mulAssignChecked_total (a b : Fp) (ha : a.bounded)
    (hb : b.bounded) :
    a.mulAssignChecked b = some (a.mulAssign b) := by
  obtain ⟨-, -, -, hc⟩ := mul_pipeline_spec a b ha hb
  unfold Fp.mulAssignChecked Fp.mulAssign
  rw [hc]
  obtain ⟨low, high, hpr⟩ : ∃ l h, schoolbook a b = (l, h) := ⟨_, _, rfl⟩
  rw [hpr]
  rfl

/-- Witness for C7 at two maximal inputs (every limb 2^64 - 1), the
extreme case for the internal carries. -/
theorem mulAssignChecked_total_witness :
    (Fp.mk (2 ^ 64 - 1) (2 ^ 64 - 1) (2 ^ 64 - 1) (2 ^ 64 - 1)).bounded ∧
      (Fp.mk (2 ^ 64 - 1) (2 ^ 64 - 1) (2 ^ 64 - 1)
            (2 ^ 64 - 1)).mulAssignChecked
          (Fp.mk (2 ^ 64 - 1) (2 ^ 64 - 1) (2 ^ 64 - 1) (2 ^ 64 - 1)) =
        some ((Fp.mk (2 ^ 64 - 1) (2 ^ 64 - 1) (2 ^ 64 - 1)
              (2 ^ 64 - 1)).mulAssign
            (Fp.mk (2 ^ 64 - 1) (2 ^ 64 - 1) (2 ^ 64 - 1) (2 ^ 64 - 1))) :=
  ⟨by decide, mulAssignChecked_total _ _ (by decide) (by decide)⟩

/-- Counterexample to C1 as stated: at a = b = 2^256 - 1 (all limbs
maximal) the final fold overflows 2^256 and the discarded carry changes
the residue class: the output represents 2^256 - 75 ≡ -37 (mod p), while
the true product (2^256 - 1)^2 ≡ 37^2 = 1369 (mod p). -/
theorem mulAssign_mod_p_counterexample :
    ((Fp.mk (2 ^ 64 - 1) (2 ^ 64 - 1) (2 ^ 64 - 1) (2 ^ 64 - 1)).mulAssign
          (Fp.mk (2 ^ 64 - 1) (2 ^ 64 - 1) (2 ^ 64 - 1) (2 ^ 64 - 1))).val %
        P ≠
      ((Fp.mk (2 ^ 64 - 1) (2 ^ 64 - 1) (2 ^ 64 - 1) (2 ^ 64 - 1)).val *
          (Fp.mk (2 ^ 64 - 1) (2 ^ 64 - 1) (2 ^ 64 - 1) (2 ^ 64 - 1)).val) %
        P := by
  decide

/-- C1 (amended): the congruence `mul(a, b) ≡ a·b (mod p)` holds whenever
the final reduction-by-38 fold does not overflow 2^256, i.e. whenever
`L + 38·H < 2^256` for `L`, `H` the halves of the exact product; the
source discards the fold's carry (the `reduce_after_scaling` call is
commented out), so for inputs violating this bound the result drops
`carry · 2^256 ≡ 38 · carry (mod p)`. -/
theorem mulAssign_mod_p (a b : Fp) (ha : a.bounded) (hb : b.bounded)
    (hnc : a.val * b.val % 2 ^ 256 + 38 * (a.val * b.val / 2 ^ 256) <
      2 ^ 256) :
    (a.mulAssign b).val % P = (a.val * b.val) % P := by
  rw [mulAssign_val_spec a b ha hb, Nat.mod_eq_of_lt hnc]
  unfold P
  generalize a.val * b.val = v at hnc ⊢
  omega

/-- Witness for C1 (amended) at a = 3, b = 5: the product is 15, no fold
carry occurs, and 15 mod p is reproduced. -/
theorem mulAssign_mod_p_witness :
    (Fp.mk 3 0 0 0).bounded ∧ (Fp.mk 5 0 0 0).bounded ∧
      (Fp.mk 3 0 0 0).val * (Fp.mk 5 0 0 0).val % 2 ^ 256 +
          38 * ((Fp.mk 3 0 0 0).val * (Fp.mk 5 0 0 0).val / 2 ^ 256) <
        2 ^ 256 ∧
      ((Fp.mk 3 0 0 0).mulAssign (Fp.mk 5 0 0 0)).val % P =
        ((Fp.mk 3 0 0 0).val * (Fp.mk 5 0 0 0).val) % P :=
  ⟨by decide, by decide, by decide,
    mulAssign_mod_p _ _ (by decide) (by decide) (by decide)⟩

/-- C8: the designated constant (all limbs 0xFF), added to the additive
identity pattern [0,0,0,0], is unchanged; multiplied by the multiplicative
identity pattern [1,0,0,0] it stays in its residue class mod p (here it is
in fact reproduced exactly). -/
theorem constant_identities :
    Fp.constant.add ⟨0, 0, 0, 0⟩ = Fp.constant ∧
      (Fp.constant.mulAssign ⟨1, 0, 0, 0⟩).val % P = Fp.constant.val % P :=
  by decide

/-- Counterexample to C9 as stated: `{:08X}` is a minimum width, not an
exact one, so the limb 2^32 is rendered with 9 hexadecimal digits
(`100000000`); the claimed fixed 8-digit chunks would force a total
length of 5 + 4·8 + 3 + 1 = 41 characters, but the actual rendering has
42. -/
theorem fmtFp_counterexample :
    fmtFp (Fp.mk 0 0 0 (2 ^ 32)) =
        "Fp(0x100000000_00000000_00000000_00000000)" ∧
      (fmtFp (Fp.mk 0 0 0 (2 ^ 32))).length ≠ 41 := by
  decide

/-- C9 (amended): the Debug rendering visits limbs from most significant
(limb 3) to least significant (limb 0), renders each as uppercase
hexadecimal zero-padded to a minimum width of 8 digits (exactly 8 only
for limbs below 2^32; larger limbs print all their digits, up to 16),
joins the chunks with underscores and wraps the whole as `Fp(0x...)`. -/
theorem fmtFp_layout (x : Fp) :
    fmtFp x = "Fp(0x" ++ fmt08X x.limb3 ++ "_" ++ fmt08X x.limb2 ++ "_" ++
      fmt08X x.limb1 ++ "_" ++ fmt08X x.limb0 ++ ")" := by
  simp only [fmtFp, fmtLimbs]
  norm_num
  simp [String.append_assoc]

end CkDodo
